import Mathlib

/-!
Shallow embedding of `app.py` of the Document-Query-Chatbot repository.

The script is a linear Streamlit application: page configuration, a
conversation-length guard, an upload handler (`show_upload_documents`,
which calls `build_qa_chain`), an information panel, the message history
renderer and the chat input handler (`show_chat_input`, which runs
`ask_chain`).  Side effects (session-state writes, the training-info file
write, collaborator calls, warnings and `st.stop`) are modelled by explicit
state passing plus an effect trace (`Step`), and the collaborator modules
of the unseen `ragbase` package are abstract function parameters that may
fail (`Option`), modelling a raised exception.
-/

namespace DocQA

/-- A retrieved source document as the UI uses it (`doc.page_content`). -/
structure Doc where
  page_content : String
deriving DecidableEq

/-- A chat message of `st.session_state.messages`: a role and a content string. -/
structure Message where
  role : String
  content : String
deriving DecidableEq

/-- One event of the stream produced by `ask_question`.  `str` and `list`
are values whose Python type is exactly `str` or exactly `list`;
`strSubclass` and `listSubclass` model values of a proper subclass of
`str` or `list`, for which `type(event) is str` and `type(event) is list`
are both false; `other` is any other value. -/
inductive Event where
  | str (s : String)
  | list (docs : List Doc)
  | strSubclass (s : String)
  | listSubclass (docs : List Doc)
  | other
deriving DecidableEq

/-- A wall-clock time as read by `datetime.now()`. -/
structure DateTime where
  year : Nat
  month : Nat
  day : Nat
  hour : Nat
  minute : Nat
  second : Nat
deriving DecidableEq

/-- Zero-padding of a number to a given width, as the `strftime` format
codes `%Y`, `%m`, `%d`, `%H`, `%M`, `%S` do. -/
def padZ (width n : Nat) : String :=
  String.mk (List.replicate (width - (Nat.repr n).length) '0') ++ Nat.repr n

/-- The timestamp format of the source: `strftime("%Y-%m-%d %H:%M:%S")`. -/
def strftime (d : DateTime) : String :=
  padZ 4 d.year ++ "-" ++ padZ 2 d.month ++ "-" ++ padZ 2 d.day ++ " " ++
    padZ 2 d.hour ++ ":" ++ padZ 2 d.minute ++ ":" ++ padZ 2 d.second

/-- The visible session state plus the training-info file.  `messages` is
`none` while the `"messages"` key is absent from `st.session_state`;
`trainingInfoFile` is the contents of `DATABASE_DIR/training_info.txt`
(`none` while the file does not exist). -/
structure SessionState where
  messages : Option (List Message)
  last_trained : Option String
  files_ingested : Option Nat
  trainingInfoFile : Option String
deriving DecidableEq

/-- One observable effect of the script, in program order. -/
inductive Step where
  | makeDirs
  | setSessionLastTrained (t : String)
  | setSessionFilesIngested (n : Nat)
  | writeTrainingInfo (contents : String)
  | callUploadFiles
  | callIngest
  | callCreateLLM
  | callCreateRetriever
  | callCreateChain
  | warnNoFiles
  | warnLimit
  | stStop
  | enterUploadHandler
  | renderHistory
  | runChatInput
deriving DecidableEq

/-- Whether a step is an invocation of one of the five `ragbase`
collaborator operations. -/
def isCollabCall : Step → Bool
  | Step.callUploadFiles => true
  | Step.callIngest => true
  | Step.callCreateLLM => true
  | Step.callCreateRetriever => true
  | Step.callCreateChain => true
  | _ => false

/-- The five collaborator operations imported from `ragbase`.  Their
internals are out of scope; each may fail (a raised exception is `none`). -/
structure Collaborators (File FPath VS LLM Retr Chain : Type) where
  upload_files : List File → Option (List FPath)
  ingest : List FPath → Option VS
  create_llm : Option LLM
  create_retriever : LLM → VS → Option Retr
  create_chain : LLM → Retr → Option Chain

/-- The contents `build_qa_chain` writes to `training_info.txt`: the two
`f.write` calls, each appending one newline-terminated line. -/
def trainingInfoContents (last_trained : String) (files_ingested : Nat) : String :=
  "Last Trained: " ++ last_trained ++ "\n" ++
    "Files Ingested: " ++ Nat.repr files_ingested ++ "\n"

/-- The tail of `build_qa_chain`: the five collaborator calls in source
order, stopping at the first failure.  Returns the chain produced by
`create_chain` (or `none` on failure) and the calls performed. -/
def runCollaborators {File FPath VS LLM Retr Chain : Type}
    (c : Collaborators File FPath VS LLM Retr Chain) (files : List File) :
    Option Chain × List Step :=
  match c.upload_files files with
  | none => (none, [Step.callUploadFiles])
  | some file_paths =>
    match c.ingest file_paths with
    | none => (none, [Step.callUploadFiles, Step.callIngest])
    | some vector_store =>
      match c.create_llm with
      | none => (none, [Step.callUploadFiles, Step.callIngest, Step.callCreateLLM])
      | some llm =>
        match c.create_retriever llm vector_store with
        | none =>
          (none, [Step.callUploadFiles, Step.callIngest, Step.callCreateLLM,
            Step.callCreateRetriever])
        | some retriever =>
          (c.create_chain llm retriever,
            [Step.callUploadFiles, Step.callIngest, Step.callCreateLLM,
              Step.callCreateRetriever, Step.callCreateChain])

/-- `build_qa_chain(files)`: ensure the database directory, take the
timestamp, store timestamp and file count in the session state, write the
two-line training-info file, then run the collaborator pipeline. -/
def build_qa_chain {File FPath VS LLM Retr Chain : Type}
    (c : Collaborators File FPath VS LLM Retr Chain) (now : DateTime)
    (files : List File) (s : SessionState) :
    Option Chain × SessionState × List Step :=
  let last_trained := strftime now
  let files_ingested := files.length
  let contents := trainingInfoContents last_trained files_ingested
  let s2 : SessionState :=
    { s with last_trained := some last_trained,
             files_ingested := some files_ingested,
             trainingInfoFile := some contents }
  let r := runCollaborators c files
  (r.1, s2,
    [Step.makeDirs, Step.setSessionLastTrained last_trained,
     Step.setSessionFilesIngested files_ingested, Step.writeTrainingInfo contents] ++ r.2)

/-- One iteration of the `async for` loop of `ask_chain`: an event whose
type is exactly `str` is appended to the response, one whose type is
exactly `list` extends the document collection, anything else is ignored. -/
def askChainStep (acc : String × List Doc) (e : Event) : String × List Doc :=
  match e with
  | Event.str s => (acc.1 ++ s, acc.2)
  | Event.list ds => (acc.1, acc.2 ++ ds)
  | _ => acc

/-- What one run of `ask_chain` produces: the displayed response, the
collected source documents, the updated message history, and the
arguments it passed to `ask_question`. -/
structure AskChainResult where
  fullResponse : String
  documents : List Doc
  messages : List Message
  questionAsked : String
  sessionIdUsed : String
deriving DecidableEq

/-- `ask_chain(question, chain)`: stream the events of
`ask_question(chain, question, session_id="session-id-42")`, fold them
with `askChainStep`, then append the assistant message.  `askq` is the
`ask_question` collaborator, abstract but for its signature. -/
def ask_chain {Chain : Type} (askq : Chain → String → String → List Event)
    (chain : Chain) (question : String) (msgs : List Message) : AskChainResult :=
  let events := askq chain question "session-id-42"
  let acc := List.foldl askChainStep ("", []) events
  { fullResponse := acc.1,
    documents := acc.2,
    messages := msgs ++ [{ role := "assistant", content := acc.1 }],
    questionAsked := question,
    sessionIdUsed := "session-id-42" }

/-- Outcome of `show_upload_documents`: `st.stop()` was reached, or the
handler proceeded and returned a chain (`none` = a collaborator raised). -/
inductive UploadOutcome (Chain : Type) where
  | stopped
  | proceeded (chain : Option Chain)
deriving DecidableEq

/-- Python truthiness of the `st.file_uploader` value as `if not
uploaded_files` reads it: `None` and the empty list are falsy. -/
def isFalsyFiles {File : Type} : Option (List File) → Bool
  | none => true
  | some [] => true
  | some (_ :: _) => false

/-- `show_upload_documents()`: render the upload widgets; with no uploaded
files warn and `st.stop()`, otherwise build the chain. -/
def show_upload_documents {File FPath VS LLM Retr Chain : Type}
    (c : Collaborators File FPath VS LLM Retr Chain) (now : DateTime)
    (uploaded_files : Option (List File)) (s : SessionState) :
    UploadOutcome Chain × SessionState × List Step :=
  if isFalsyFiles uploaded_files then
    (UploadOutcome.stopped, s, [Step.warnNoFiles, Step.stStop])
  else
    let r := build_qa_chain c now (uploaded_files.getD []) s
    (UploadOutcome.proceeded r.1, r.2.1, r.2.2)

/-- The greeting placed in the session state when `"messages"` is absent. -/
def greeting : Message :=
  { role := "assistant", content := "Hi! I'm VS-Bot 🤖, How can I help you today?" }

/-- The `if "messages" not in st.session_state` initialisation. -/
def initMessages : Option (List Message) → List Message
  | none => [greeting]
  | some ms => ms

/-- `show_chat_input(chain)`: the walrus guard `if prompt :=
st.chat_input(...)` (None and the empty string are falsy), then append the
user message and run `ask_chain`. -/
def show_chat_input {Chain : Type} (askq : Chain → String → String → List Event)
    (chain : Chain) (prompt : Option String) (msgs : List Message) : List Message :=
  match prompt with
  | none => msgs
  | some p =>
    if p = "" then msgs
    else (ask_chain askq chain p (msgs ++ [{ role := "user", content := p }])).messages

/-- The top-level script body after the page configuration: initialise the
message list, enforce the conversation-length guard, run the upload
handler, then the panels, the history renderer and the chat input. -/
def script {File FPath VS LLM Retr Chain : Type}
    (c : Collaborators File FPath VS LLM Retr Chain)
    (askq : Chain → String → String → List Event)
    (limit : Int) (now : DateTime)
    (uploaded_files : Option (List File)) (prompt : Option String)
    (s0 : SessionState) : SessionState × List Step :=
  let msgs := initMessages s0.messages
  let s1 : SessionState := { s0 with messages := some msgs }
  if limit > 0 ∧ limit ≤ (msgs.length : Int) then
    (s1, [Step.warnLimit, Step.stStop])
  else
    match show_upload_documents c now uploaded_files s1 with
    | (UploadOutcome.stopped, s2, tr) => (s2, Step.enterUploadHandler :: tr)
    | (UploadOutcome.proceeded none, s2, tr) => (s2, Step.enterUploadHandler :: tr)
    | (UploadOutcome.proceeded (some chain), s2, tr) =>
      let msgs2 := initMessages s2.messages
      let msgs3 := show_chat_input askq chain prompt msgs2
      ({ s2 with messages := some msgs3 },
        (Step.enterUploadHandler :: tr) ++ [Step.renderHistory, Step.runChatInput])

/-- The text of the events whose Python type is exactly `str`. -/
def strPart : Event → Option String
  | Event.str s => some s
  | _ => none

/-- The documents of the events whose Python type is exactly `list`. -/
def listPart : Event → Option (List Doc)
  | Event.list ds => some ds
  | _ => none

/-- Whether an event reaches one of the two `if` bodies of the stream loop. -/
def isMaterialEvent : Event → Bool
  | Event.str _ => true
  | Event.list _ => true
  | _ => false

/-- Concatenation of a list of strings, in order. -/
def concatStrings : List String → String
  | [] => ""
  | s :: rest => s ++ concatStrings rest

/-- Concatenation of a list of lists, in order. -/
def concatAll {α : Type} : List (List α) → List α
  | [] => []
  | l :: rest => l ++ concatAll rest

/-- Split a character sequence at every newline character. -/
def splitOnNewline : List Char → List (List Char)
  | [] => [[]]
  | c :: cs =>
    if c = '\n' then [] :: splitOnNewline cs
    else
      match splitOnNewline cs with
      | [] => [[c]]
      | l :: ls => (c :: l) :: ls

/-- The lines of a text file: the newline-separated pieces, without the
empty piece a trailing newline leaves at the end. -/
def fileLines (s : String) : List (List Char) :=
  let parts := splitOnNewline s.data
  if parts.getLast? = some [] then parts.dropLast else parts

/-- A concrete collaborator instantiation, used to check theorems on a
concrete input. -/
def collabU : Collaborators Unit Unit Unit Unit Unit Unit :=
  { upload_files := fun _ => some [()],
    ingest := fun _ => some (),
    create_llm := some (),
    create_retriever := fun _ _ => some (),
    create_chain := fun _ _ => some () }

/-- A concrete `ask_question` oracle yielding no events. -/
def askqU : Unit → String → String → List Event := fun _ _ _ => []

/-- A concrete `ask_question` oracle echoing the session id it receives. -/
def askqEcho : Unit → String → String → List Event := fun _ _ sid => [Event.str sid]

/-- A second echo oracle, agreeing with `askqEcho` on "session-id-42". -/
def askqEcho2 : Unit → String → String → List Event :=
  fun _ _ sid => if sid = "session-id-42" then [Event.str sid] else []

/-- A concrete timestamp, used to check theorems on a concrete input. -/
def dtW : DateTime := ⟨2026, 10, 12, 0, 0, 0⟩

/-- The session state of a fresh session. -/
def sEmpty : SessionState :=
  { messages := none, last_trained := none, files_ingested := none, trainingInfoFile := none }

/-- A session state whose message list holds the greeting. -/
def sInit : SessionState := { sEmpty with messages := some [greeting] }

/-- A string without newline characters. -/
abbrev noNL (s : String) : Prop := ∀ c ∈ s.data, c ≠ '\n'

theorem noNL_append {s t : String} (hs : noNL s) (ht : noNL t) : noNL (s ++ t) := by
  intro c hc
  rw [String.data_append] at hc
  rcases List.mem_append.mp hc with h | h
  · exact hs c h
  · exact ht c h

theorem digitChar_ne_newline (n : Nat) : Nat.digitChar n ≠ '\n' := by
  by_cases h : n < 16
  · exact (by decide : ∀ m, m < 16 → Nat.digitChar m ≠ '\n') n h
  · unfold Nat.digitChar
    repeat rw [if_neg (by omega)]
    decide

theorem toDigitsCore_ne_newline (b : Nat) :
    ∀ (fuel n : Nat) (ds : List Char), (∀ c ∈ ds, c ≠ '\n') →
      ∀ c ∈ Nat.toDigitsCore b fuel n ds, c ≠ '\n' := by
  intro fuel
  induction fuel with
  | zero =>
    intro n ds h c hc
    exact h c hc
  | succ fuel ih =>
    intro n ds h c hc
    have hds : ∀ x ∈ Nat.digitChar (n % b) :: ds, x ≠ '\n' := by
      intro x hx
      rcases List.mem_cons.mp hx with h1 | h2
      · rw [h1]; exact digitChar_ne_newline _
      · exact h x h2
    simp only [Nat.toDigitsCore] at hc
    split at hc
    · exact hds c hc
    · exact ih _ _ hds c hc

theorem noNL_repr (n : Nat) : noNL (Nat.repr n) := by
  intro c hc
  exact toDigitsCore_ne_newline 10 (n + 1) n []
    (by intro x hx; cases hx) c hc

theorem noNL_padZ (w n : Nat) : noNL (padZ w n) := by
  refine noNL_append ?_ (noNL_repr n)
  intro c hc
  have := List.eq_of_mem_replicate hc
  rw [this]; decide

theorem noNL_strftime (d : DateTime) : noNL (strftime d) := by
  have hdash : noNL "-" := by decide
  have hsp : noNL " " := by decide
  have hcol : noNL ":" := by decide
  unfold strftime
  exact noNL_append (noNL_append (noNL_append (noNL_append (noNL_append (noNL_append
    (noNL_append (noNL_append (noNL_append (noNL_append (noNL_padZ 4 d.year) hdash)
      (noNL_padZ 2 d.month)) hdash) (noNL_padZ 2 d.day)) hsp) (noNL_padZ 2 d.hour)) hcol)
        (noNL_padZ 2 d.minute)) hcol) (noNL_padZ 2 d.second)

theorem splitOnNewline_append (l rest : List Char) (hl : ∀ c ∈ l, c ≠ '\n') :
    splitOnNewline (l ++ '\n' :: rest) = l :: splitOnNewline rest := by
  induction l with
  | nil => simp [splitOnNewline]
  | cons c cs ih =>
    have hc : c ≠ '\n' := hl c (List.mem_cons_self c cs)
    have hcs : ∀ x ∈ cs, x ≠ '\n' := fun x hx => hl x (List.mem_cons_of_mem c hx)
    rw [List.cons_append, splitOnNewline, if_neg hc, ih hcs]

theorem fileLines_trainingInfo (ts : String) (n : Nat) (hts : noNL ts) :
    fileLines (trainingInfoContents ts n) =
      [("Last Trained: " ++ ts).data, ("Files Ingested: " ++ Nat.repr n).data] := by
  have h1 : noNL ("Last Trained: " ++ ts) :=
    noNL_append (by decide : noNL "Last Trained: ") hts
  have h2 : noNL ("Files Ingested: " ++ Nat.repr n) :=
    noNL_append (by decide : noNL "Files Ingested: ") (noNL_repr n)
  have hdata : (trainingInfoContents ts n).data =
      ("Last Trained: " ++ ts).data ++ '\n' ::
        (("Files Ingested: " ++ Nat.repr n).data ++ '\n' :: []) := by
    unfold trainingInfoContents
    simp only [String.data_append, List.append_assoc]
    rfl
  unfold fileLines
  rw [hdata, splitOnNewline_append _ _ h1, splitOnNewline_append _ _ h2]
  rfl

theorem runCollaborators_calls {File FPath VS LLM Retr Chain : Type}
    (c : Collaborators File FPath VS LLM Retr Chain) (files : List File) :
    ∀ st ∈ (runCollaborators c files).2, isCollabCall st = true := by
  unfold runCollaborators
  repeat' split
  all_goals first
    | exact (by decide : ∀ st ∈ [Step.callUploadFiles], isCollabCall st = true)
    | exact (by decide : ∀ st ∈ [Step.callUploadFiles, Step.callIngest],
        isCollabCall st = true)
    | exact (by decide : ∀ st ∈ [Step.callUploadFiles, Step.callIngest,
        Step.callCreateLLM], isCollabCall st = true)
    | exact (by decide : ∀ st ∈ [Step.callUploadFiles, Step.callIngest,
        Step.callCreateLLM, Step.callCreateRetriever], isCollabCall st = true)
    | exact (by decide : ∀ st ∈ [Step.callUploadFiles, Step.callIngest,
        Step.callCreateLLM, Step.callCreateRetriever, Step.callCreateChain],
        isCollabCall st = true)

/-- C1: every call of `build_qa_chain` leaves `training_info.txt` holding
exactly two lines, in this order: `Last Trained: <timestamp>` with the
timestamp of the start of the call, and `Files Ingested: <count>` with
the count the length of the files list passed in. -/
theorem build_qa_chain_training_info_two_lines
    {File FPath VS LLM Retr Chain : Type}
    (c : Collaborators File FPath VS LLM Retr Chain) (now : DateTime)
    (files : List File) (s : SessionState) :
    ∃ contents, (build_qa_chain c now files s).2.1.trainingInfoFile = some contents ∧
      fileLines contents =
        [("Last Trained: " ++ strftime now).data,
         ("Files Ingested: " ++ Nat.repr files.length).data] :=
  ⟨trainingInfoContents (strftime now) files.length, rfl,
    fileLines_trainingInfo _ _ (noNL_strftime now)⟩

/-- C8: `build_qa_chain` stores the timestamp and the file count in the
session state and writes the training-info file before any collaborator
call: in every outcome, also after a collaborator failure, the returned
state holds the new values and the trace is the four state effects
followed only by collaborator calls. -/
theorem build_qa_chain_writes_before_collaborators
    {File FPath VS LLM Retr Chain : Type}
    (c : Collaborators File FPath VS LLM Retr Chain) (now : DateTime)
    (files : List File) (s : SessionState) :
    ((build_qa_chain c now files s).2.1.last_trained = some (strftime now) ∧
     (build_qa_chain c now files s).2.1.files_ingested = some files.length ∧
     (build_qa_chain c now files s).2.1.trainingInfoFile =
       some (trainingInfoContents (strftime now) files.length)) ∧
    ∃ calls, (build_qa_chain c now files s).2.2 =
        [Step.makeDirs, Step.setSessionLastTrained (strftime now),
         Step.setSessionFilesIngested files.length,
         Step.writeTrainingInfo (trainingInfoContents (strftime now) files.length)] ++ calls ∧
      ∀ st ∈ calls, isCollabCall st = true :=
  ⟨⟨rfl, rfl, rfl⟩, (runCollaborators c files).2, rfl, runCollaborators_calls c files⟩

/-- C6: with every collaborator succeeding, `build_qa_chain` invokes the
collaborators in the fixed linear order upload_files, ingest, create_llm,
create_retriever, create_chain, and returns exactly the value returned by
`create_chain`. -/
theorem build_qa_chain_call_order_and_result
    {File FPath VS LLM Retr Chain : Type}
    (c : Collaborators File FPath VS LLM Retr Chain) (now : DateTime)
    (files : List File) (s : SessionState)
    (file_paths : List FPath) (vector_store : VS) (llm : LLM) (retriever : Retr)
    (hup : c.upload_files files = some file_paths)
    (hing : c.ingest file_paths = some vector_store)
    (hllm : c.create_llm = some llm)
    (hret : c.create_retriever llm vector_store = some retriever) :
    (build_qa_chain c now files s).1 = c.create_chain llm retriever ∧
    List.filter isCollabCall (build_qa_chain c now files s).2.2 =
      [Step.callUploadFiles, Step.callIngest, Step.callCreateLLM,
       Step.callCreateRetriever, Step.callCreateChain] := by
  have hr : runCollaborators c files =
      (c.create_chain llm retriever,
        [Step.callUploadFiles, Step.callIngest, Step.callCreateLLM,
         Step.callCreateRetriever, Step.callCreateChain]) := by
    simp only [runCollaborators, hup, hing, hllm, hret]
  have h1 : (build_qa_chain c now files s).1 = (runCollaborators c files).1 := rfl
  have h2 : (build_qa_chain c now files s).2.2 =
      [Step.makeDirs, Step.setSessionLastTrained (strftime now),
       Step.setSessionFilesIngested files.length,
       Step.writeTrainingInfo (trainingInfoContents (strftime now) files.length)] ++
        (runCollaborators c files).2 := rfl
  constructor
  · rw [h1, hr]
  · rw [h2, hr]
    rfl

theorem build_qa_chain_call_order_and_result_witness :
    collabU.upload_files [()] = some [()] ∧
    collabU.ingest [()] = some () ∧
    collabU.create_llm = some () ∧
    collabU.create_retriever () () = some () ∧
    ((build_qa_chain collabU dtW [()] sEmpty).1 = collabU.create_chain () () ∧
     List.filter isCollabCall (build_qa_chain collabU dtW [()] sEmpty).2.2 =
       [Step.callUploadFiles, Step.callIngest, Step.callCreateLLM,
        Step.callCreateRetriever, Step.callCreateChain]) :=
  ⟨rfl, rfl, rfl, rfl,
    build_qa_chain_call_order_and_result collabU dtW [()] sEmpty [()] () () ()
      rfl rfl rfl rfl⟩

/-- C2: with no uploaded files (the value is absent or the empty list),
`show_upload_documents` emits the warning and halts, and none of the
collaborator operations is invoked. -/
theorem show_upload_documents_no_files_stops
    {File FPath VS LLM Retr Chain : Type}
    (c : Collaborators File FPath VS LLM Retr Chain) (now : DateTime)
    (uploaded_files : Option (List File)) (s : SessionState)
    (h : isFalsyFiles uploaded_files = true) :
    show_upload_documents c now uploaded_files s =
      (UploadOutcome.stopped, s, [Step.warnNoFiles, Step.stStop]) ∧
    List.filter isCollabCall (show_upload_documents c now uploaded_files s).2.2 = [] := by
  unfold show_upload_documents
  rw [h]
  exact ⟨rfl, rfl⟩

theorem show_upload_documents_no_files_stops_witness :
    isFalsyFiles (none : Option (List Unit)) = true ∧
    (show_upload_documents collabU dtW (none : Option (List Unit)) sEmpty =
       (UploadOutcome.stopped, sEmpty, [Step.warnNoFiles, Step.stStop]) ∧
     List.filter isCollabCall
       (show_upload_documents collabU dtW (none : Option (List Unit)) sEmpty).2.2 = []) :=
  ⟨rfl, show_upload_documents_no_files_stops collabU dtW none sEmpty rfl⟩

theorem foldl_askChainStep_fst (events : List Event) (acc : String × List Doc) :
    (List.foldl askChainStep acc events).1 =
      acc.1 ++ concatStrings (List.filterMap strPart events) := by
  induction events generalizing acc with
  | nil => simp [concatStrings]
  | cons e es ih =>
    cases e <;>
      simp [askChainStep, strPart, concatStrings, ih, String.append_assoc]

theorem foldl_askChainStep_snd (events : List Event) (acc : String × List Doc) :
    (List.foldl askChainStep acc events).2 =
      acc.2 ++ concatAll (List.filterMap listPart events) := by
  induction events generalizing acc with
  | nil => simp [concatAll]
  | cons e es ih =>
    cases e <;>
      simp [askChainStep, listPart, concatAll, ih, List.append_assoc]

/-- C4: the full response `ask_chain` shows and appends to the history as
the assistant message equals the concatenation, in stream order, of
exactly the events whose type is `str`. -/
theorem ask_chain_response_concat_str_events {Chain : Type}
    (askq : Chain → String → String → List Event) (chain : Chain)
    (question : String) (msgs : List Message) :
    (ask_chain askq chain question msgs).fullResponse =
      concatStrings (List.filterMap strPart (askq chain question "session-id-42")) ∧
    (ask_chain askq chain question msgs).messages =
      msgs ++ [{ role := "assistant",
                 content := (ask_chain askq chain question msgs).fullResponse }] := by
  constructor
  · show (List.foldl askChainStep ("", []) (askq chain question "session-id-42")).1 = _
    rw [foldl_askChainStep_fst]
    exact String.empty_append _
  · rfl

/-- C5: the source documents `ask_chain` collects for later display equal
the concatenation, in stream order, of the elements of exactly the events
whose type is `list`. -/
theorem ask_chain_documents_concat_list_events {Chain : Type}
    (askq : Chain → String → String → List Event) (chain : Chain)
    (question : String) (msgs : List Message) :
    (ask_chain askq chain question msgs).documents =
      concatAll (List.filterMap listPart (askq chain question "session-id-42")) := by
  show (List.foldl askChainStep ("", []) (askq chain question "session-id-42")).2 = _
  rw [foldl_askChainStep_snd]
  exact List.nil_append _

theorem foldl_askChainStep_filter (events : List Event) (acc : String × List Doc) :
    List.foldl askChainStep acc (List.filter isMaterialEvent events) =
      List.foldl askChainStep acc events := by
  induction events generalizing acc with
  | nil => rfl
  | cons e es ih =>
    cases e <;> simp [isMaterialEvent, askChainStep, List.filter, ih]

/-- C10: stream events whose type is neither exactly `str` nor exactly
`list` (subclasses of either included) leave the response and the
document collection unchanged: the run over any stream equals the run
over the stream with all such events removed. -/
theorem ask_chain_ignores_nonmaterial_events {Chain : Type}
    (askq : Chain → String → String → List Event) (chain : Chain)
    (question : String) (msgs : List Message) :
    ask_chain (fun ch q sid => List.filter isMaterialEvent (askq ch q sid))
        chain question msgs =
      ask_chain askq chain question msgs := by
  simp only [ask_chain]
  rw [foldl_askChainStep_filter]

/-- C9: every invocation of `ask_question` by `ask_chain` passes the
constant session id "session-id-42", whatever the question or state: the
id used is the same for any two questions, and the result depends on the
oracle only through its behaviour at that session id. -/
theorem ask_chain_constant_session_id {Chain : Type}
    (askq askq2 : Chain → String → String → List Event) (chain : Chain)
    (q1 q2 : String) (msgs1 msgs2 : List Message)
    (h : ∀ ch q, askq ch q "session-id-42" = askq2 ch q "session-id-42") :
    (ask_chain askq chain q1 msgs1).sessionIdUsed = "session-id-42" ∧
    (ask_chain askq chain q1 msgs1).sessionIdUsed =
      (ask_chain askq chain q2 msgs2).sessionIdUsed ∧
    ask_chain askq chain q1 msgs1 = ask_chain askq2 chain q1 msgs1 := by
  refine ⟨rfl, rfl, ?_⟩
  unfold ask_chain
  rw [h]

theorem ask_chain_constant_session_id_witness :
    (∀ (ch : Unit) (q : String),
      askqEcho ch q "session-id-42" = askqEcho2 ch q "session-id-42") ∧
    ((ask_chain askqEcho () "q1" []).sessionIdUsed = "session-id-42" ∧
     (ask_chain askqEcho () "q1" []).sessionIdUsed =
       (ask_chain askqEcho () "q2" []).sessionIdUsed ∧
     ask_chain askqEcho () "q1" [] = ask_chain askqEcho2 () "q1" []) :=
  ⟨fun _ _ => rfl,
    ask_chain_constant_session_id askqEcho askqEcho2 () "q1" "q2" [] []
      (fun _ _ => rfl)⟩

theorem show_chat_input_extends {Chain : Type}
    (askq : Chain → String → String → List Event) (chain : Chain)
    (prompt : Option String) (msgs : List Message) :
    ∃ t, msgs ++ t = show_chat_input askq chain prompt msgs := by
  cases prompt with
  | none => exact ⟨[], List.append_nil msgs⟩
  | some p =>
    by_cases hp : p = ""
    · refine ⟨[], ?_⟩
      rw [List.append_nil]
      simp [show_chat_input, hp]
    · have h1 : show_chat_input askq chain (some p) msgs =
          (ask_chain askq chain p
            (msgs ++ [{ role := "user", content := p }])).messages := by
        simp [show_chat_input, hp]
      have h2 : (ask_chain askq chain p
            (msgs ++ [{ role := "user", content := p }])).messages =
          (msgs ++ [{ role := "user", content := p }]) ++
            [{ role := "assistant",
               content := (ask_chain askq chain p
                 (msgs ++ [{ role := "user", content := p }])).fullResponse }] := rfl
      refine ⟨[{ role := "user", content := p }] ++
        [{ role := "assistant",
           content := (ask_chain askq chain p
             (msgs ++ [{ role := "user", content := p }])).fullResponse }], ?_⟩
      rw [h1, h2, List.append_assoc]

theorem show_upload_documents_messages {File FPath VS LLM Retr Chain : Type}
    (c : Collaborators File FPath VS LLM Retr Chain) (now : DateTime)
    (uploaded_files : Option (List File)) (s : SessionState) :
    (show_upload_documents c now uploaded_files s).2.1.messages = s.messages := by
  unfold show_upload_documents
  split
  · rfl
  · rfl

/-- C7: the chat message history is append-only: initialisation, a run of
`ask_chain`, a run of the chat input handler and a whole script run each
extend the current message list at its end, never removing or modifying
an entry, so any earlier history is a prefix of any later one. -/
theorem messages_append_only :
    (∀ ms : Option (List Message), ∃ t, Option.getD ms [] ++ t = initMessages ms) ∧
    (∀ (Chain : Type) (askq : Chain → String → String → List Event) (chain : Chain)
       (q : String) (msgs : List Message),
        ∃ t, msgs ++ t = (ask_chain askq chain q msgs).messages) ∧
    (∀ (Chain : Type) (askq : Chain → String → String → List Event) (chain : Chain)
       (prompt : Option String) (msgs : List Message),
        ∃ t, msgs ++ t = show_chat_input askq chain prompt msgs) ∧
    (∀ (File FPath VS LLM Retr Chain : Type)
       (c : Collaborators File FPath VS LLM Retr Chain)
       (askq : Chain → String → String → List Event)
       (limit : Int) (now : DateTime) (uploaded_files : Option (List File))
       (prompt : Option String) (s0 : SessionState),
        ∃ t, initMessages s0.messages ++ t =
          Option.getD (script c askq limit now uploaded_files prompt s0).1.messages []) := by
  refine ⟨?_, ?_, ?_, ?_⟩
  · intro ms
    cases ms with
    | none => exact ⟨[greeting], rfl⟩
    | some l => exact ⟨[], List.append_nil l⟩
  · intro Chain askq chain q msgs
    exact ⟨[Message.mk "assistant" (ask_chain askq chain q msgs).fullResponse], rfl⟩
  · intro Chain askq chain prompt msgs
    exact show_chat_input_extends askq chain prompt msgs
  · intro File FPath VS LLM Retr Chain c askq limit now uploaded_files prompt s0
    simp only [script]
    split
    · exact ⟨[], List.append_nil _⟩
    · split
      · rename_i s2 tr heq
        have hm : s2.messages = some (initMessages s0.messages) := by
          have h := show_upload_documents_messages c now uploaded_files
            { s0 with messages := some (initMessages s0.messages) }
          rw [heq] at h
          exact h
        rw [hm]
        exact ⟨[], List.append_nil _⟩
      · rename_i s2 tr heq
        have hm : s2.messages = some (initMessages s0.messages) := by
          have h := show_upload_documents_messages c now uploaded_files
            { s0 with messages := some (initMessages s0.messages) }
          rw [heq] at h
          exact h
        rw [hm]
        exact ⟨[], List.append_nil _⟩
      · rename_i chain s2 tr heq
        have hm : s2.messages = some (initMessages s0.messages) := by
          have h := show_upload_documents_messages c now uploaded_files
            { s0 with messages := some (initMessages s0.messages) }
          rw [heq] at h
          exact h
        rw [hm]
        exact show_chat_input_extends askq chain prompt (initMessages s0.messages)

/-- C3 counterexample: with the configured limit 0 the number of stored
messages (1) is at least the limit, yet the script does not halt at the
guard: it reaches the upload handler and never emits the limit warning. -/
theorem limit_guard_unconditional_false :
    (0 : Int) ≤ ((initMessages sInit.messages).length : Int) ∧
    Step.enterUploadHandler ∈
      (script collabU askqU 0 dtW (none : Option (List Unit)) none sInit).2 ∧
    Step.warnLimit ∉
      (script collabU askqU 0 dtW (none : Option (List Unit)) none sInit).2 := by
  refine ⟨by decide, by decide, by decide⟩

/-- C3 (amended): the conversation-length guard halts the script with a
warning before the upload handler, the history renderer and the chat
input run, when the configured limit is strictly positive and the number
of stored messages is at least the limit. -/
theorem limit_guard_halts_when_positive
    {File FPath VS LLM Retr Chain : Type}
    (c : Collaborators File FPath VS LLM Retr Chain)
    (askq : Chain → String → String → List Event)
    (limit : Int) (now : DateTime) (uploaded_files : Option (List File))
    (prompt : Option String) (s0 : SessionState)
    (hpos : 0 < limit)
    (hlen : limit ≤ ((initMessages s0.messages).length : Int)) :
    script c askq limit now uploaded_files prompt s0 =
      ({ s0 with messages := some (initMessages s0.messages) },
       [Step.warnLimit, Step.stStop]) := by
  simp only [script]
  split
  · rfl
  · rename_i hcond
    exact absurd ⟨hpos, hlen⟩ hcond

theorem limit_guard_halts_when_positive_witness :
    (0 : Int) < 1 ∧
    (1 : Int) ≤ ((initMessages sInit.messages).length : Int) ∧
    script collabU askqU 1 dtW (none : Option (List Unit)) none sInit =
      ({ sInit with messages := some (initMessages sInit.messages) },
       [Step.warnLimit, Step.stStop]) :=
  ⟨by decide, by decide,
    limit_guard_halts_when_positive collabU askqU 1 dtW none none sInit
      (by decide) (by decide)⟩

end DocQA
